import Mathlib

/-!
# math-problem-generator-webapp: the math-text sanitizer and the request orchestrator

A shallow embedding of

* `src/math-problem-frontend/src/components/MathText.jsx`
  (`sanitizeContent`, `MathText`), and
* `src/math-problem-frontend/src/App.jsx`
  (`handleAnalyze`, `handleGenerate`, `handleDownloadPDF`, `handleDownloadWord`
  and the input `onChange` handlers),

followed by the properties of the specification that concern them.

A JavaScript string is a finite sequence of UTF-16 code units; it is embedded as
a list of natural numbers, one per code unit.  The regular expressions of
`sanitizeContent` carry no `u` flag, so they, like `String.prototype.trim`, work
code unit by code unit.

An event handler of `App` is embedded as the list of its observable steps
(setter calls, `fetch`, `alert`, `console.error`, file save) in program order,
computed from the state of the render it runs in and from the answer of the
environment to its request.  The request body is kept as the value handed to
`JSON.stringify`.
-/

namespace MathProblemGenerator

/-! ## Strings -/

/-- A JavaScript string: its UTF-16 code units, in order. -/
abbrev JsString := List Nat

/-- The UTF-16 code units of one Unicode scalar value. -/
def utf16Units (c : Char) : List Nat :=
  if c.toNat < 0x10000 then [c.toNat]
  else [0xD800 + (c.toNat - 0x10000) / 0x400, 0xDC00 + (c.toNat - 0x10000) % 0x400]

/-- The JavaScript string written by a string literal of the source. -/
def utf16 (s : String) : JsString :=
  s.toList.flatMap utf16Units

/-- Code unit of the backslash. -/
def BACKSLASH : Nat := 0x5C
/-- Code unit of the yen sign U+00A5. -/
def YEN : Nat := 0xA5
/-- Code unit of the full-width yen sign U+FFE5. -/
def FULLWIDTH_YEN : Nat := 0xFFE5
/-- Code unit of the dollar sign. -/
def DOLLAR : Nat := 0x24
/-- Code unit of the opening parenthesis. -/
def LPAREN : Nat := 0x28
/-- Code unit of the closing parenthesis. -/
def RPAREN : Nat := 0x29
/-- Code unit of the opening square bracket. -/
def LBRACKET : Nat := 0x5B
/-- Code unit of the closing square bracket. -/
def RBRACKET : Nat := 0x5D
/-- Code unit of the carriage return. -/
def CR : Nat := 0x0D
/-- Code unit of the line feed. -/
def LF : Nat := 0x0A

/-- The code units that `String.prototype.trim` strips: ECMAScript `WhiteSpace`
(TAB, VT, FF, SP, NBSP, ZWNBSP and the category `Zs`) and `LineTerminator`
(LF, CR, LS, PS). -/
def isTrimWhitespace (c : Nat) : Bool :=
  c == 0x09 || c == 0x0A || c == 0x0B || c == 0x0C || c == 0x0D || c == 0x20 ||
  c == 0xA0 || c == 0x1680 || (0x2000 ≤ c && c ≤ 0x200A) || c == 0x2028 ||
  c == 0x2029 || c == 0x202F || c == 0x205F || c == 0x3000 || c == 0xFEFF

/-- The method `String.prototype.trim`: strip leading and trailing white space. -/
def trim (s : JsString) : JsString :=
  ((s.dropWhile isTrimWhitespace).reverse.dropWhile isTrimWhitespace).reverse

/-! ## `MathText.jsx` -/

/-- The call `.replace(/[¥￥]/g, '\\')`: every yen sign, of either width, becomes a
backslash. -/
def replaceYen (s : JsString) : JsString :=
  s.map (fun c => if c = YEN ∨ c = FULLWIDTH_YEN then BACKSLASH else c)

/-- The call `.replace(/\\X/g, rep)` for one literal code unit `X = second`: scanning left
to right, each match of the two code units backslash, `second` is replaced by
`rep` and the scan resumes after the match; the replacement text is not
rescanned.  (The replacement strings of the source are `'$'` and `''`; a `$` that
ends the replacement string stands for itself.) -/
def replaceEscaped (second : Nat) (rep : JsString) : JsString → JsString
  | [] => []
  | [x] => [x]
  | x :: y :: rest =>
    if x = BACKSLASH ∧ y = second then rep ++ replaceEscaped second rep rest
    else x :: replaceEscaped second rep (y :: rest)

/-- The call `.replace(/\r?\n/g, '\n')`: scanning left to right, each match (a line feed,
together with the carriage return right before it when there is one) is replaced
by a line feed. -/
def replaceNewlines : JsString → JsString
  | [] => []
  | [x] => [x]
  | x :: y :: rest =>
    if x = CR ∧ y = LF then LF :: replaceNewlines rest
    else x :: replaceNewlines (y :: rest)

/-- The function `sanitizeContent(value)` for a value that is absent (`none`: `undefined` or
`null`) or a string, on which `String(value)` is the identity.  `!value` holds of
the absent value and of the empty string. -/
def sanitizeContent (value : Option JsString) : JsString :=
  match value with
  | none => []
  | some s =>
    if s = [] then []
    else
      replaceNewlines
        (replaceEscaped RBRACKET []
          (replaceEscaped LBRACKET []
            (replaceEscaped RPAREN [DOLLAR]
              (replaceEscaped LPAREN [DOLLAR]
                (replaceYen s)))))

/-- The `ReactMarkdown` element `MathText` returns: its `className` and its
child text (the plugin lists are the constants `[remarkMath]`,
`[rehypeKatex]`). -/
structure ReactMarkdownElement where
  className : JsString
  children : JsString
  deriving DecidableEq, Repr

/-- The chain `[...].filter(Boolean).join(' ')` on a list of strings. -/
def joinTruthy (parts : List JsString) : JsString :=
  List.intercalate (utf16 " ") (parts.filter (fun p => !p.isEmpty))

/-- The component `MathText({ children, className = '' })`; `none` is the `null` it returns
when there is nothing to render. -/
def MathText (children : Option JsString) (className : JsString) :
    Option ReactMarkdownElement :=
  let content := sanitizeContent children
  if trim content = [] then none
  else
    some
      { className :=
          joinTruthy [utf16 "prose", utf16 "prose-sm", utf16 "max-w-none",
            utf16 "text-gray-800", utf16 "dark:text-gray-100", className]
        children := content }

/-! ## JavaScript values

The values the orchestrator handles are the ones `response.json()` can yield
(JSON values), strings typed by the user, and numbers.  No arithmetic is done on
numbers, only truthiness tests and copies, so a finite number carries its exact
value. -/

/-- A JavaScript number: `NaN`, the infinities, negative zero, or a finite value
(`finite 0` is `+0`). -/
inductive JsNum
  | nan
  | posInf
  | negInf
  | negZero
  | finite (q : ℚ)
  deriving DecidableEq

/-- Truthiness of a number (`ToBoolean`): false for `NaN`, `+0` and `-0`. -/
def JsNum.truthy : JsNum → Bool
  | .nan => false
  | .negZero => false
  | .finite q => q != 0
  | .posInf => true
  | .negInf => true

/-- A JavaScript value: `undefined`, `null`, a boolean, a number, a string, an
array or a plain object (its own properties, in insertion order). -/
inductive JsVal
  | undefined
  | null
  | bool (b : Bool)
  | num (n : JsNum)
  | str (s : JsString)
  | arr (items : List JsVal)
  | obj (props : List (JsString × JsVal))

/-- The own properties of a plain object. -/
abbrev Props := List (JsString × JsVal)

/-- Truthiness of a value (`ToBoolean`), as tested by `!v`, `v || w` and
`if (v)`. -/
def truthy : JsVal → Bool
  | .undefined => false
  | .null => false
  | .bool b => b
  | .num n => n.truthy
  | .str s => !s.isEmpty
  | .arr _ => true
  | .obj _ => true

/-- Whether a value is `null` or `undefined`. -/
def nullish : JsVal → Bool
  | .undefined => true
  | .null => true
  | _ => false

/-- The expression `a || b` (both operands here are free of side effects). -/
def jsOr (a b : JsVal) : JsVal :=
  if truthy a then a else b

/-- The expression `a ?? b`. -/
def nullishOr (a b : JsVal) : JsVal :=
  if nullish a then b else a

/-- Value of the property `k` among own properties, `undefined` when there is
none. -/
def lookup (k : JsString) : Props → JsVal
  | [] => .undefined
  | (k', v) :: rest => if k' = k then v else lookup k rest

/-- Define or overwrite the property `k`, as a later entry of an object literal
does after a spread. -/
def setProp (k : JsString) (v : JsVal) : Props → Props
  | [] => [(k, v)]
  | (k', v') :: rest => if k' = k then (k, v) :: rest else (k', v') :: setProp k v rest

/-- The own enumerable properties that a spread `{...v}` copies: the properties
of an object, the elements of an array and the code units of a string under their
indices, nothing for the other values. -/
def ownEntries : JsVal → Props
  | .obj props => props
  | .arr items =>
    ((List.range items.length).zip items).map (fun p => (utf16 (toString p.1), p.2))
  | .str s =>
    ((List.range s.length).zip s).map (fun p => (utf16 (toString p.1), JsVal.str [p.2]))
  | _ => []

/-- The read `v?.k`, and the read `v.k` on a value that is not nullish, for a
property name `k` that no built-in prototype defines (every name the program
reads is such a name): an own property, `length` of an array or string, else
`undefined`. -/
def getPropOpt (v : JsVal) (k : JsString) : JsVal :=
  match v with
  | .obj props => lookup k props
  | .arr items =>
    if k = utf16 "length" then .num (.finite items.length) else lookup k (ownEntries (.arr items))
  | .str s =>
    if k = utf16 "length" then .num (.finite s.length) else lookup k (ownEntries (.str s))
  | _ => .undefined

/-- What a `try` block can throw to its `catch`. -/
inductive Thrown
  -- the value `new Error(message)`; `message` is the argument of the constructor
  | error (message : JsVal)
  -- the `TypeError` of a property read on `null` or `undefined`
  | typeError
  -- a rejection of `fetch()`, `response.json()` or `response.blob()`, with its message
  | rejection (message : JsString)

/-- The read `v.k`: throws a `TypeError` on `null` and `undefined`. -/
def getProp (v : JsVal) (k : JsString) : Except Thrown JsVal :=
  if nullish v then .error .typeError else .ok (getPropOpt v k)

/-! ## `App.jsx`: state -/

/-- A file chosen in the image input. -/
structure File where
  name : JsString

/-- The payload of `response.blob()`: its bytes. -/
abbrev Blob := List Nat

/-- The nine `useState` cells of `App`. -/
structure AppState where
  textInput : JsString
  imageFile : Option File
  analysisResult : JsVal
  difficulty : JsString
  problemCount : JsNum
  solutionHint : JsString
  generatedProblems : JsVal
  isAnalyzing : Bool
  isGenerating : Bool

/-- The initial values passed to `useState`. -/
def initialState : AppState :=
  { textInput := utf16 ""
    imageFile := none
    analysisResult := .null
    difficulty := utf16 "Level 3 (応用)"
    problemCount := .finite 3
    solutionHint := utf16 ""
    generatedProblems := .null
    isAnalyzing := false
    isGenerating := false }

/-- The constant `API_BASE_URL`. -/
def API_BASE_URL : JsString := utf16 "/api"

/-- What the environment answers to one `fetch`: the response status flag and
the outcome of reading its body (`response.json()` or `response.blob()`). -/
structure Response (β : Type) where
  ok : Bool
  body : Except JsString β

/-- Outcome of `await fetch(...)`: a rejection (network failure) or a response. -/
inductive Reply (β : Type)
  | rejected (message : JsString)
  | resolved (response : Response β)

/-- The observable steps of a handler, in program order: calls of the state
setters, `fetch` with the value handed to `JSON.stringify` as body, `alert`
(its fixed text, and the caught value whose `message` is appended),
`console.error`, and the click on the temporary download link. -/
inductive Action
  | setIsAnalyzing (b : Bool)
  | setIsGenerating (b : Bool)
  | setAnalysisResult (v : JsVal)
  | setGeneratedProblems (v : JsVal)
  | fetch (url : JsString) (body : JsVal)
  | alert (text : JsString) (caught : Option Thrown)
  | consoleError (caught : Thrown)
  | save (download : JsString) (blob : Blob)

/-- The statement `await fetch(...)`. -/
def awaitFetch {β : Type} (reply : Reply β) : Except Thrown (Response β) :=
  match reply with
  | .rejected message => .error (.rejection message)
  | .resolved response => .ok response

/-- The statement `await response.json()` or `await response.blob()`. -/
def awaitBody {β : Type} (response : Response β) : Except Thrown β :=
  match response.body with
  | .error message => .error (.rejection message)
  | .ok value => .ok value

/-- The function `Number(v)` on a value that is a number already. -/
def Number (v : JsNum) : JsNum := v

/-! ## `App.jsx`: handlers -/

/-- The `try` block of `handleAnalyze` after the `fetch` call (lines 42-55): the
object passed to `setAnalysisResult`, or what is thrown. -/
def analyzeTry (textInput : JsString) (reply : Reply JsVal) : Except Thrown JsVal := do
  let response ← awaitFetch reply
  if !response.ok then
    throw (Thrown.error (.str (utf16 "解析に失敗しました")))
  let result ← awaitBody response
  let success ← getProp result (utf16 "success")
  if !truthy success then
    let error ← getProp result (utf16 "error")
    throw (Thrown.error (jsOr error (.str (utf16 "解析結果を取得できませんでした"))))
  let analysis ← getProp result (utf16 "analysis")
  let original ← getProp result (utf16 "original_problem")
  let raw ← getProp result (utf16 "raw_response")
  let normalizedAnalysis :=
    setProp (utf16 "raw_response") raw
      (setProp (utf16 "original_problem")
        (jsOr (getPropOpt analysis (utf16 "original_problem"))
          (jsOr original (.str (trim textInput))))
        (ownEntries (jsOr analysis (.obj []))))
  return .obj normalizedAnalysis

/-- The handler `handleAnalyze`, run in the render whose state is `st`, with the
environment answering the request by `reply`. -/
def handleAnalyze (st : AppState) (reply : Reply JsVal) : List Action :=
  if trim st.textInput = [] then
    [.alert (utf16 "例題を入力してください") none]
  else
    [.setIsAnalyzing true,
     .fetch (API_BASE_URL ++ utf16 "/analyze")
       (.obj [(utf16 "problem_text", .str st.textInput)])]
    ++ (match analyzeTry st.textInput reply with
        | .ok normalizedAnalysis => [.setAnalysisResult normalizedAnalysis]
        | .error error =>
          [.consoleError error, .alert (utf16 "解析中にエラーが発生しました: ") (some error)])
    ++ [.setIsAnalyzing false]

/-- The body of the request `handleGenerate` sends (lines 72-85). -/
def generateBody (st : AppState) : JsVal :=
  let originalProblem :=
    jsOr (getPropOpt st.analysisResult (utf16 "problem_text"))
      (jsOr (getPropOpt st.analysisResult (utf16 "original_problem"))
        (.str (trim st.textInput)))
  .obj
    [(utf16 "analysis", st.analysisResult),
     (utf16 "original_problem", originalProblem),
     (utf16 "difficulty", .str st.difficulty),
     (utf16 "count", jsOr (.num (Number st.problemCount)) (.num (.finite 1))),
     (utf16 "solution_hint", .str st.solutionHint),
     (utf16 "analysis_summary",
       jsOr (getPropOpt st.analysisResult (utf16 "summary")) (.str (utf16 "")))]

/-- The `try` block of `handleGenerate` after the `fetch` call (lines 88-93). -/
def generateTry (reply : Reply JsVal) : Except Thrown JsVal := do
  let response ← awaitFetch reply
  if !response.ok then
    throw (Thrown.error (.str (utf16 "類題生成に失敗しました")))
  let result ← awaitBody response
  return result

/-- The handler `handleGenerate`. -/
def handleGenerate (st : AppState) (reply : Reply JsVal) : List Action :=
  if !truthy st.analysisResult then
    [.alert (utf16 "まず例題を解析してください") none]
  else
    [.setIsGenerating true,
     .fetch (API_BASE_URL ++ utf16 "/generate") (generateBody st)]
    ++ (match generateTry reply with
        | .ok result => [.setGeneratedProblems result]
        | .error error =>
          [.consoleError error, .alert (utf16 "類題生成中にエラーが発生しました: ") (some error)])
    ++ [.setIsGenerating false]

/-- The body of both download requests (lines 111-115 and 146-150). -/
def downloadBody (generatedProblems : JsVal) : JsVal :=
  .obj
    [(utf16 "problems", nullishOr (getPropOpt generatedProblems (utf16 "problems")) (.arr [])),
     (utf16 "problems_text",
       nullishOr (getPropOpt generatedProblems (utf16 "problems_text")) (.str (utf16 ""))),
     (utf16 "metadata", nullishOr (getPropOpt generatedProblems (utf16 "metadata")) (.obj []))]

/-- The `try` block of a download handler after the `fetch` call: the blob to
save, or what is thrown; `failure` is the message of the handler's `Error`. -/
def downloadTry (failure : JsString) (reply : Reply Blob) : Except Thrown Blob := do
  let response ← awaitFetch reply
  if !response.ok then
    throw (Thrown.error (.str failure))
  let blob ← awaitBody response
  return blob

/-- The handler `handleDownloadPDF`. -/
def handleDownloadPDF (st : AppState) (reply : Reply Blob) : List Action :=
  if !truthy st.generatedProblems then []
  else
    [.fetch (API_BASE_URL ++ utf16 "/download/pdf") (downloadBody st.generatedProblems)]
    ++ (match downloadTry (utf16 "PDF生成に失敗しました") reply with
        | .ok blob => [.save (utf16 "math_problems.pdf") blob]
        | .error error =>
          [.consoleError error, .alert (utf16 "PDF生成中にエラーが発生しました: ") (some error)])

/-- The handler `handleDownloadWord`. -/
def handleDownloadWord (st : AppState) (reply : Reply Blob) : List Action :=
  if !truthy st.generatedProblems then []
  else
    [.fetch (API_BASE_URL ++ utf16 "/download/word") (downloadBody st.generatedProblems)]
    ++ (match downloadTry (utf16 "Word生成に失敗しました") reply with
        | .ok blob => [.save (utf16 "math_problems.docx") blob]
        | .error error =>
          [.consoleError error, .alert (utf16 "Word生成中にエラーが発生しました: ") (some error)])

/-- The `onChange` handlers of the form controls (lines 209, 221, 278, 299,
309).  `imageFile` carries `e.target.files?.[0] || null`; `problemCount` carries
the result of the built-in `parseInt(e.target.value)`. -/
inductive Edit
  | textInput (value : JsString)
  | imageFile (file : Option File)
  | difficulty (value : JsString)
  | problemCount (parsed : JsNum)
  | solutionHint (value : JsString)

/-- Effect of an `onChange` handler on the state. -/
def applyEdit (e : Edit) (st : AppState) : AppState :=
  match e with
  | .textInput value => { st with textInput := value }
  | .imageFile file => { st with imageFile := file }
  | .difficulty value => { st with difficulty := value }
  | .problemCount parsed =>
    { st with problemCount := if parsed.truthy then parsed else .finite 3 }
  | .solutionHint value => { st with solutionHint := value }

/-- Effect of one step of a handler on the state: a setter overwrites its cell,
the other steps leave the state alone. -/
def applyAction (a : Action) (st : AppState) : AppState :=
  match a with
  | .setIsAnalyzing b => { st with isAnalyzing := b }
  | .setIsGenerating b => { st with isGenerating := b }
  | .setAnalysisResult v => { st with analysisResult := v }
  | .setGeneratedProblems v => { st with generatedProblems := v }
  | .fetch _ _ => st
  | .alert _ _ => st
  | .consoleError _ => st
  | .save _ _ => st

/-- State after all steps of a handler have been applied, in order. -/
def run (actions : List Action) (st : AppState) : AppState :=
  actions.foldl (fun s a => applyAction a s) st

/-- Whether a step triggers a file save. -/
def Action.isSave : Action → Bool
  | .save _ _ => true
  | _ => false

/-- The bodies of the requests among the steps, in order. -/
def requestBodies : List Action → List JsVal
  | [] => []
  | .fetch _ body :: rest => body :: requestBodies rest
  | _ :: rest => requestBodies rest

/-- The states the application can be in.  A handler runs in the render it was
created in (state `snap`) and is asynchronous: its setter calls land on whatever
the state is by then (`cur`), other events may come in between. -/
inductive Reachable : AppState → Prop
  | init : Reachable initialState
  | edit (e : Edit) (st : AppState) : Reachable st → Reachable (applyEdit e st)
  | analyze (snap cur : AppState) (reply : Reply JsVal) (a : Action) :
      Reachable snap → Reachable cur → a ∈ handleAnalyze snap reply →
      Reachable (applyAction a cur)
  | generate (snap cur : AppState) (reply : Reply JsVal) (a : Action) :
      Reachable snap → Reachable cur → a ∈ handleGenerate snap reply →
      Reachable (applyAction a cur)
  | downloadPDF (snap cur : AppState) (reply : Reply Blob) (a : Action) :
      Reachable snap → Reachable cur → a ∈ handleDownloadPDF snap reply →
      Reachable (applyAction a cur)
  | downloadWord (snap cur : AppState) (reply : Reply Blob) (a : Action) :
      Reachable snap → Reachable cur → a ∈ handleDownloadWord snap reply →
      Reachable (applyAction a cur)

/-- The request failed at the transport or HTTP level: `fetch` rejected, or the
response has a non-success status (`!response.ok`). -/
def httpFailure {β : Type} : Reply β → Bool
  | .rejected _ => true
  | .resolved response => !response.ok

/-- A response with a success status whose body carries no truthy `success`
flag. -/
def refusedByBody : Reply JsVal → Bool
  | .rejected _ => false
  | .resolved response =>
    response.ok &&
      (match response.body with
       | .ok result => !truthy (getPropOpt result (utf16 "success"))
       | .error _ => false)

/-- The reply of a successful analyze call with body `result`: success status,
body parsed. -/
def okReply (result : JsVal) : Reply JsVal :=
  .resolved { ok := true, body := .ok result }

/-! ## Example states and replies -/

/-- The initial state after the user has typed ` x ` (with a space on either
side) into the text area. -/
def typedState : AppState :=
  applyEdit (.textInput (utf16 " x ")) initialState

/-- A body of a successful analysis that carries no `original_problem` at
all. -/
def plainResult : JsVal :=
  .obj [(utf16 "success", .bool true),
        (utf16 "analysis", .obj [(utf16 "grade", .str (utf16 "中3"))])]

/-- A body of a successful analysis whose `analysis` has no `original_problem`
and which echoes the problem at top level. -/
def echoResult : JsVal :=
  .obj [(utf16 "success", .bool true),
        (utf16 "analysis", .obj [(utf16 "grade", .str (utf16 "中3"))]),
        (utf16 "original_problem", .str (utf16 "echo"))]

/-- The state `typedState` after a complete analyze call answered by
`plainResult`. -/
def analyzedState : AppState :=
  run (handleAnalyze typedState (okReply plainResult)) typedState

/-- The state `analyzedState` after a complete generate call answered by an
empty object. -/
def generatedState : AppState :=
  run (handleGenerate analyzedState (okReply (.obj []))) analyzedState

/-- The initial state after three spaces were typed into the text area and a
file was chosen in the image input. -/
def imageOnlyState : AppState :=
  applyEdit (.imageFile (some { name := utf16 "problem.png" }))
    (applyEdit (.textInput (utf16 "   ")) initialState)

/-- The state `analyzedState` with `NaN` as problem count: a value the count
input itself never stores (its handler replaces a falsy number by 3), used to
exercise the fallback of `Number(problemCount) || 1`. -/
def nanCountState : AppState :=
  { analyzedState with problemCount := .nan }

/-- An analyze reply with a success status and a false `success` flag. -/
def refusedReply : Reply JsVal :=
  okReply (.obj [(utf16 "success", .bool false), (utf16 "error", .str (utf16 "bad input"))])

/-- A reply with a non-success status. -/
def failedReply : Reply JsVal :=
  .resolved { ok := false, body := .ok (.obj []) }

/-- A download request that `fetch` rejects. -/
def rejectedBlobReply : Reply Blob :=
  .rejected (utf16 "Failed to fetch")

/-- A download reply with a non-success status. -/
def failedBlobReply : Reply Blob :=
  .resolved { ok := false, body := .ok [] }

/-! ## Invariants -/

/-- A step that stores an analysis result stores an object whose
`original_problem` is truthy. -/
def GoodAction : Action → Prop
  | .setAnalysisResult v =>
    ∃ props, v = .obj props ∧ truthy (lookup (utf16 "original_problem") props) = true
  | _ => True

/-- The stored analysis result is `null` or an object whose `original_problem`
is truthy, and the stored problem count is a truthy number. -/
def StateInvariant (st : AppState) : Prop :=
  (st.analysisResult = .null ∨
    ∃ props, st.analysisResult = .obj props ∧
      truthy (lookup (utf16 "original_problem") props) = true) ∧
  st.problemCount.truthy = true

/-! ## Properties of strings used in the statements -/

/-- An input with nothing to show: absent, empty, or white space only. -/
def isBlank (value : Option JsString) : Bool :=
  match value with
  | none => true
  | some s => s.all isTrimWhitespace

/-- The relation between neighbours saying: a backslash is not followed by a code
unit of `F`. -/
def NoEscape (F : List Nat) (x y : Nat) : Prop :=
  x = BACKSLASH → y ∉ F

/-- Every carriage return of the string is immediately followed by a line feed. -/
def crOnlyBeforeLf : JsString → Bool
  | [] => true
  | [x] => x != CR
  | x :: y :: rest => (x != CR || y == LF) && crOnlyBeforeLf (y :: rest)

/-- One left-to-right pass that rewrites the escapes listed in `table`: a
backslash followed by a code unit `y` with `table y = some rep` is replaced by
`rep`.  Used to relate the chain of passes of `sanitizeContent` to
`rewriteDelimiters`. -/
def rewriteWith (table : Nat → Option JsString) : JsString → JsString
  | [] => []
  | [x] => [x]
  | x :: y :: rest =>
    if x = BACKSLASH then
      match table y with
      | some rep => rep ++ rewriteWith table rest
      | none => x :: rewriteWith table (y :: rest)
    else x :: rewriteWith table (y :: rest)

/-- The delimiter rewriting in the words of the specification, as one pass over
the text: each `\(` and each `\)` becomes `$`, each `\[` and each `\]` is
removed, everything else is kept. -/
def rewriteDelimiters : JsString → JsString
  | [] => []
  | [x] => [x]
  | x :: y :: rest =>
    if x = BACKSLASH ∧ (y = LPAREN ∨ y = RPAREN) then DOLLAR :: rewriteDelimiters rest
    else if x = BACKSLASH ∧ (y = LBRACKET ∨ y = RBRACKET) then rewriteDelimiters rest
    else x :: rewriteDelimiters (y :: rest)

/-! ## Lemmas on the rewriting passes -/

theorem replaceEscaped_cons_of_ne (c : Nat) (rep : JsString) (x : Nat) (t : JsString)
    (hx : x ≠ BACKSLASH) : replaceEscaped c rep (x :: t) = x :: replaceEscaped c rep t := by
  cases t with
  | nil => simp [replaceEscaped]
  | cons y rest => simp [replaceEscaped, hx]

theorem replaceEscaped_of_not_mem (c : Nat) (rep : JsString) (s : JsString)
    (h : BACKSLASH ∉ s) : replaceEscaped c rep s = s := by
  induction s with
  | nil => simp [replaceEscaped]
  | cons x t ih =>
    have hx : x ≠ BACKSLASH := fun e => h (by simp [e])
    have ht : BACKSLASH ∉ t := fun e => h (by simp [e])
    rw [replaceEscaped_cons_of_ne c rep x t hx, ih ht]

theorem mem_replaceEscaped (c : Nat) (rep : JsString) (z : Nat) :
    ∀ s : JsString, z ∈ replaceEscaped c rep s → z ∈ s ∨ z ∈ rep := by
  intro s
  induction s using replaceEscaped.induct c rep with
  | case1 => simp [replaceEscaped]
  | case2 x =>
    intro hz
    exact Or.inl (by simpa [replaceEscaped] using hz)
  | case3 x y rest hm ih =>
    intro hz
    rw [replaceEscaped, if_pos hm, List.mem_append] at hz
    rcases hz with hz | hz
    · exact Or.inr hz
    · rcases ih hz with h | h
      · exact Or.inl (by simp [h])
      · exact Or.inr h
  | case4 x y rest hm ih =>
    intro hz
    rw [replaceEscaped, if_neg hm, List.mem_cons] at hz
    rcases hz with hz | hz
    · exact Or.inl (by simp [hz])
    · rcases ih hz with h | h
      · exact Or.inl (List.mem_cons_of_mem _ h)
      · exact Or.inr h

theorem mem_replaceNewlines (z : Nat) :
    ∀ s : JsString, z ∈ replaceNewlines s → z ∈ s := by
  intro s
  induction s using replaceNewlines.induct with
  | case1 => simp [replaceNewlines]
  | case2 x => simp [replaceNewlines]
  | case3 x y rest hm ih =>
    intro hz
    rw [replaceNewlines, if_pos hm, List.mem_cons] at hz
    rcases hz with hz | hz
    · simp [hz, hm.2]
    · have := ih hz
      simp [this]
  | case4 x y rest hm ih =>
    intro hz
    rw [replaceNewlines, if_neg hm, List.mem_cons] at hz
    rcases hz with hz | hz
    · simp [hz]
    · exact List.mem_cons_of_mem _ (ih hz)

theorem head_replaceNewlines (y : Nat) (rest : JsString) :
    (replaceNewlines (y :: rest)).head? = some y ∨
      (replaceNewlines (y :: rest)).head? = some LF := by
  cases rest with
  | nil => simp [replaceNewlines]
  | cons z r =>
    by_cases hm : y = CR ∧ z = LF
    · simp [replaceNewlines, hm]
    · simp [replaceNewlines, hm]

theorem noEscape_replaceNewlines (F : List Nat) (hLF : LF ∉ F) :
    ∀ s : JsString, List.Chain' (NoEscape F) s →
      List.Chain' (NoEscape F) (replaceNewlines s) := by
  intro s
  induction s using replaceNewlines.induct with
  | case1 => intro _; simp [replaceNewlines]
  | case2 x => intro _; simp [replaceNewlines]
  | case3 x y rest hm ih =>
    intro h
    rw [replaceNewlines, if_pos hm]
    refine List.Chain'.cons' (ih h.tail.tail) ?_
    intro z _ hB
    exact absurd hB (by decide)
  | case4 x y rest hm ih =>
    intro h
    rw [replaceNewlines, if_neg hm]
    have hxy : NoEscape F x y := (List.chain'_cons.1 h).1
    refine List.Chain'.cons' (ih h.tail) ?_
    intro z hz hx
    rcases head_replaceNewlines y rest with h1 | h1
    · rw [h1] at hz
      simp at hz
      subst hz
      exact hxy hx
    · rw [h1] at hz
      simp at hz
      subst hz
      exact hLF

theorem not_infix_of_noEscape (F : List Nat) (t : Nat) (s : JsString)
    (h : List.Chain' (NoEscape F) s) (ht : t ∈ F) : ¬ [BACKSLASH, t] <:+: s := by
  intro hin
  have := h.infix hin
  simp [NoEscape] at this
  exact this ht

theorem crOnly_cons_of_ne (q : Nat) (t : JsString) (hq : q ≠ CR) :
    crOnlyBeforeLf (q :: t) = crOnlyBeforeLf t := by
  cases t with
  | nil => simp [crOnlyBeforeLf, hq]
  | cons y r => simp [crOnlyBeforeLf, hq]

theorem crOnly_append (pre t : JsString) (hpre : ∀ d ∈ pre, d ≠ CR) :
    crOnlyBeforeLf (pre ++ t) = crOnlyBeforeLf t := by
  induction pre with
  | nil => simp
  | cons d pre ih =>
    rw [List.cons_append, crOnly_cons_of_ne _ _ (hpre d (by simp))]
    exact ih (fun e he => hpre e (List.mem_cons_of_mem _ he))

theorem crOnly_replaceEscaped (c : Nat) (rep : JsString) (hc : c ≠ CR)
    (hrep : ∀ d ∈ rep, d ≠ CR) :
    ∀ s : JsString, crOnlyBeforeLf s = true →
      crOnlyBeforeLf (replaceEscaped c rep s) = true := by
  intro s
  induction s using replaceEscaped.induct c rep with
  | case1 => intro _; simp [replaceEscaped, crOnlyBeforeLf]
  | case2 x => intro h; simpa [replaceEscaped] using h
  | case3 x y rest hm ih =>
    intro h
    rw [replaceEscaped, if_pos hm, crOnly_append _ _ hrep]
    apply ih
    have hx : x ≠ CR := by rw [hm.1]; decide
    have hy : y ≠ CR := by rw [hm.2]; exact hc
    rwa [crOnly_cons_of_ne _ _ hx, crOnly_cons_of_ne _ _ hy] at h
  | case4 x y rest hm ih =>
    intro h
    rw [replaceEscaped, if_neg hm]
    by_cases hx : x = CR
    · have hy : y = LF := by
        simp [crOnlyBeforeLf, hx] at h
        exact h.1
      have h2 : crOnlyBeforeLf (y :: rest) = true := by
        simp [crOnlyBeforeLf] at h
        exact h.2
      have ih2 := ih h2
      subst hy
      rw [replaceEscaped_cons_of_ne c rep LF rest (by decide)] at ih2 ⊢
      simp [crOnlyBeforeLf, ih2]
    · rw [crOnly_cons_of_ne _ _ hx] at h ⊢
      exact ih h

theorem yen_image_eq_cr (c : Nat) :
    (if c = YEN ∨ c = FULLWIDTH_YEN then BACKSLASH else c) = CR ↔ c = CR := by
  split_ifs with h
  · constructor
    · intro e; exact absurd e (by decide)
    · intro e; rcases h with h | h <;> · rw [h] at e; exact absurd e (by decide)
  · rfl

theorem yen_image_eq_lf (c : Nat) :
    (if c = YEN ∨ c = FULLWIDTH_YEN then BACKSLASH else c) = LF ↔ c = LF := by
  split_ifs with h
  · constructor
    · intro e; exact absurd e (by decide)
    · intro e; rcases h with h | h <;> · rw [h] at e; exact absurd e (by decide)
  · rfl

theorem crOnly_map (f : Nat → Nat) (hCR : ∀ c, f c = CR ↔ c = CR)
    (hLF : ∀ c, f c = LF ↔ c = LF) :
    ∀ s : JsString, crOnlyBeforeLf (s.map f) = crOnlyBeforeLf s := by
  intro s
  have e1 : ∀ x, (f x != CR) = (x != CR) := fun x =>
    Bool.eq_iff_iff.2 (by rw [bne_iff_ne, bne_iff_ne, ne_eq, ne_eq, hCR])
  have e2 : ∀ y, (f y == LF) = (y == LF) := fun y =>
    Bool.eq_iff_iff.2 (by rw [beq_iff_eq, beq_iff_eq, hLF])
  induction s using crOnlyBeforeLf.induct with
  | case1 => simp [crOnlyBeforeLf]
  | case2 x =>
    simp only [List.map, crOnlyBeforeLf]
    exact e1 x
  | case3 x y rest ih =>
    simp only [List.map] at ih ⊢
    simp only [crOnlyBeforeLf, ih]
    rw [e1, e2]

theorem crOnly_replaceYen (s : JsString) (h : crOnlyBeforeLf s = true) :
    crOnlyBeforeLf (replaceYen s) = true := by
  rw [replaceYen, crOnly_map _ yen_image_eq_cr yen_image_eq_lf]
  exact h

theorem not_mem_replaceNewlines :
    ∀ s : JsString, crOnlyBeforeLf s = true → CR ∉ replaceNewlines s := by
  intro s
  induction s using replaceNewlines.induct with
  | case1 => intro _; simp [replaceNewlines]
  | case2 x =>
    intro h
    simp [crOnlyBeforeLf] at h
    simpa [replaceNewlines] using fun e => h e.symm
  | case3 x y rest hm ih =>
    intro h
    rw [replaceNewlines, if_pos hm]
    have h2 : crOnlyBeforeLf rest = true := by
      have hx : y ≠ CR := by rw [hm.2]; decide
      simp only [crOnlyBeforeLf, Bool.and_eq_true] at h
      have := h.2
      rwa [crOnly_cons_of_ne _ _ hx] at this
    intro hmem
    rcases List.mem_cons.1 hmem with e | e
    · revert e; decide
    · exact ih h2 e
  | case4 x y rest hm ih =>
    intro h
    rw [replaceNewlines, if_neg hm]
    simp only [crOnlyBeforeLf, Bool.and_eq_true, Bool.or_eq_true, bne_iff_ne, beq_iff_eq] at h
    have hx : x ≠ CR := by
      intro e
      rcases h.1 with h1 | h1
      · exact h1 e
      · exact hm ⟨e, h1⟩
    intro hmem
    rcases List.mem_cons.1 hmem with e | e
    · exact hx e.symm
    · exact ih h.2 e

theorem crOnly_of_index :
    ∀ s : JsString, (∀ i, s[i]? = some CR → s[i + 1]? = some LF) →
      crOnlyBeforeLf s = true := by
  intro s
  induction s using crOnlyBeforeLf.induct with
  | case1 => intro _; simp [crOnlyBeforeLf]
  | case2 x =>
    intro h
    have h0 := h 0
    simp at h0
    simpa [crOnlyBeforeLf] using h0
  | case3 x y rest ih =>
    intro h
    have h0 := h 0
    simp at h0
    have htl : crOnlyBeforeLf (y :: rest) = true := by
      apply ih
      intro i hi
      have := h (i + 1)
      simpa using this (by simpa using hi)
    simp only [crOnlyBeforeLf, htl, Bool.and_true, Bool.or_eq_true, bne_iff_ne, beq_iff_eq]
    by_cases hx : x = CR
    · exact Or.inr (h0 hx)
    · exact Or.inl hx

theorem count_lf_replaceYen (s : JsString) :
    (replaceYen s).count LF = s.count LF := by
  induction s with
  | nil => simp [replaceYen]
  | cons x t ih =>
    simp only [replaceYen, List.map] at ih ⊢
    rw [List.count_cons, List.count_cons, ih]
    by_cases hx : x = LF
    · simp [hx, (yen_image_eq_lf LF).2 rfl]
    · have : (if x = YEN ∨ x = FULLWIDTH_YEN then BACKSLASH else x) ≠ LF :=
        fun e => hx ((yen_image_eq_lf x).1 e)
      simp [hx, this]

theorem count_lf_replaceEscaped (c : Nat) (rep : JsString) (hc : c ≠ LF)
    (hrep : LF ∉ rep) :
    ∀ s : JsString, (replaceEscaped c rep s).count LF = s.count LF := by
  intro s
  induction s using replaceEscaped.induct c rep with
  | case1 => simp [replaceEscaped]
  | case2 x => simp [replaceEscaped]
  | case3 x y rest hm ih =>
    rw [replaceEscaped, if_pos hm, List.count_append, ih, List.count_eq_zero_of_not_mem hrep]
    have hx : x ≠ LF := by rw [hm.1]; decide
    have hy : y ≠ LF := by rw [hm.2]; exact hc
    simp [List.count_cons, hx, hy]
  | case4 x y rest hm ih =>
    rw [replaceEscaped, if_neg hm, List.count_cons, ih, List.count_cons (b := x)]

theorem count_lf_replaceNewlines :
    ∀ s : JsString, (replaceNewlines s).count LF = s.count LF := by
  intro s
  induction s using replaceNewlines.induct with
  | case1 => simp [replaceNewlines]
  | case2 x => simp [replaceNewlines]
  | case3 x y rest hm ih =>
    rw [replaceNewlines, if_pos hm, List.count_cons, ih]
    rw [hm.1, hm.2]
    simp [List.count_cons, CR, LF]
  | case4 x y rest hm ih =>
    rw [replaceNewlines, if_neg hm, List.count_cons, ih, List.count_cons (b := x)]

theorem trim_eq_nil_of_all (s : JsString) (h : ∀ c ∈ s, isTrimWhitespace c = true) :
    trim s = [] := by
  have : s.dropWhile isTrimWhitespace = [] := List.dropWhile_eq_nil_iff.2 h
  simp [trim, this]

theorem replaceYen_of_whitespace (s : JsString) (h : ∀ c ∈ s, isTrimWhitespace c = true) :
    replaceYen s = s := by
  unfold replaceYen
  conv_rhs => rw [← List.map_id s]
  apply List.map_congr_left
  intro c hc
  have hw := h c hc
  have : ¬ (c = YEN ∨ c = FULLWIDTH_YEN) := by
    rintro (e | e) <;> · rw [e] at hw; revert hw; decide
  simp [this]

theorem replaceYen_idem (s : JsString) : replaceYen (replaceYen s) = replaceYen s := by
  unfold replaceYen
  rw [List.map_map]
  apply List.map_congr_left
  intro c _
  simp only [Function.comp]
  split_ifs <;> rfl

theorem not_mem_replaceYen (s : JsString) :
    YEN ∉ replaceYen s ∧ FULLWIDTH_YEN ∉ replaceYen s := by
  unfold replaceYen
  constructor
  · intro h
    rcases List.mem_map.1 h with ⟨c, _, hc⟩
    split_ifs at hc with h1
    · revert hc; decide
    · exact h1 (Or.inl hc)
  · intro h
    rcases List.mem_map.1 h with ⟨c, _, hc⟩
    split_ifs at hc with h1
    · revert hc; decide
    · exact h1 (Or.inr hc)

/-- The five passes preserve the absence of a code unit that no replacement text
contains. -/
theorem not_mem_passes (z : Nat) (hz1 : z ≠ DOLLAR) (t : JsString)
    (h : z ∉ t) :
    z ∉ replaceNewlines
        (replaceEscaped RBRACKET []
          (replaceEscaped LBRACKET []
            (replaceEscaped RPAREN [DOLLAR]
              (replaceEscaped LPAREN [DOLLAR] t)))) := by
  intro hm
  have h5 := mem_replaceNewlines z _ hm
  rcases mem_replaceEscaped _ _ z _ h5 with h4 | h4
  · rcases mem_replaceEscaped _ _ z _ h4 with h3 | h3
    · rcases mem_replaceEscaped _ _ z _ h3 with h2 | h2
      · rcases mem_replaceEscaped _ _ z _ h2 with h1 | h1
        · exact h h1
        · exact hz1 (by simpa using h1)
      · exact hz1 (by simpa using h2)
    · simp at h3
  · simp at h4

theorem rewriteWith_cons_of_ne (table : Nat → Option JsString) (x : Nat) (t : JsString)
    (hx : x ≠ BACKSLASH) : rewriteWith table (x :: t) = x :: rewriteWith table t := by
  cases t with
  | nil => simp [rewriteWith]
  | cons y rest => simp [rewriteWith, hx]

theorem rewriteWith_none (t : JsString) : rewriteWith (fun _ => none) t = t := by
  induction t using rewriteWith.induct (fun _ => none) with
  | case1 => rfl
  | case2 x => rfl
  | case3 y rest rep hrep _ => simp at hrep
  | case4 y rest _ ih =>
    rw [rewriteWith, if_pos rfl]
    simp only
    rw [ih]
  | case5 x y rest hx ih => rw [rewriteWith, if_neg hx, ih]

theorem replaceEscaped_append_inert (c : Nat) (rep pre u : JsString)
    (hpre : ∀ d ∈ pre, d ≠ BACKSLASH) :
    replaceEscaped c rep (pre ++ u) = pre ++ replaceEscaped c rep u := by
  induction pre with
  | nil => rfl
  | cons d pre ih =>
    rw [List.cons_append, replaceEscaped_cons_of_ne c rep d _ (hpre d (by simp)),
      ih (fun e he => hpre e (List.mem_cons_of_mem _ he)), List.cons_append]

theorem replaceEscaped_backslash_cons (c : Nat) (rep w : JsString)
    (hw : w.head? ≠ some c) :
    replaceEscaped c rep (BACKSLASH :: w) = BACKSLASH :: replaceEscaped c rep w := by
  cases w with
  | nil => simp [replaceEscaped]
  | cons y r =>
    have hy : y ≠ c := fun e => hw (by simp [e])
    rw [replaceEscaped, if_neg (fun e => hy e.2)]

/-- The first code unit that `rewriteWith` puts out for `y :: rest` is `y`,
unless `y` is a backslash that starts an escape of the table. -/
theorem head_rewriteWith (table : Nat → Option JsString) (y : Nat) (rest : JsString) :
    (rewriteWith table (y :: rest)).head? = some y ∨
    (y = BACKSLASH ∧ ∃ z r rr, rest = z :: r ∧ table z = some rr ∧
      rewriteWith table (y :: rest) = rr ++ rewriteWith table r) := by
  cases rest with
  | nil => exact Or.inl rfl
  | cons z r =>
    by_cases hy : y = BACKSLASH
    · cases hz : table z with
      | none =>
        left
        rw [rewriteWith, if_pos hy, hz]
        rfl
      | some rr =>
        right
        refine ⟨hy, z, r, rr, rfl, hz, ?_⟩
        rw [rewriteWith, if_pos hy, hz]
    · left
      rw [rewriteWith, if_neg hy]
      rfl

theorem not_triple_tail (z x : Nat) (t : JsString)
    (h : ¬ [BACKSLASH, BACKSLASH, z] <:+: x :: t) : ¬ [BACKSLASH, BACKSLASH, z] <:+: t :=
  fun hin => h (hin.trans (List.suffix_cons x t).isInfix)

theorem triple_head (z : Nat) (r : JsString) :
    [BACKSLASH, BACKSLASH, z] <:+: BACKSLASH :: BACKSLASH :: z :: r :=
  List.IsPrefix.isInfix ⟨r, by simp⟩

/-- One more pass of `replaceEscaped` on top of a one-pass rewriting is the
one-pass rewriting with one more entry, as long as no escape that the table
removes comes right after a backslash. -/
theorem replaceEscaped_rewriteWith (table : Nat → Option JsString) (c : Nat) (rep : JsString)
    (hc : table c = none) (hcB : c ≠ BACKSLASH)
    (hentries : ∀ y r, table y = some r →
      r = [] ∨ ∃ d, r = [d] ∧ d ≠ BACKSLASH ∧ d ≠ c) :
    ∀ t : JsString, (∀ z, table z = some [] → ¬ [BACKSLASH, BACKSLASH, z] <:+: t) →
      replaceEscaped c rep (rewriteWith table t) =
        rewriteWith (fun y => if y = c then some rep else table y) t := by
  intro t
  induction t using rewriteWith.induct table with
  | case1 => intro _; rfl
  | case2 x => intro _; rfl
  | case3 y rest r hr ih =>
    intro hno
    have hyc : y ≠ c := fun e => by rw [e, hc] at hr; exact absurd hr (by simp)
    have hrB : ∀ d ∈ r, d ≠ BACKSLASH := by
      rcases hentries y r hr with e | ⟨d, e, hd, _⟩
      · subst e; simp
      · subst e; intro d' hd'; rw [List.mem_singleton.1 hd']; exact hd
    have ih2 := ih (fun z hz => not_triple_tail z _ _ (not_triple_tail z _ _ (hno z hz)))
    rw [rewriteWith, if_pos rfl, hr]
    simp only
    rw [replaceEscaped_append_inert c rep r _ hrB, ih2, rewriteWith, if_pos rfl]
    simp only [if_neg hyc, hr]
  | case4 y rest hr ih =>
    intro hno
    have ih2 := ih (fun z hz => not_triple_tail z _ _ (hno z hz))
    rw [rewriteWith, if_pos rfl, hr]
    simp only
    by_cases hyc : y = c
    · subst hyc
      rw [rewriteWith_cons_of_ne _ y rest hcB, replaceEscaped_cons_of_ne _ rep y _ hcB,
        rewriteWith_cons_of_ne _ y rest hcB, List.cons.injEq] at ih2
      rw [rewriteWith_cons_of_ne _ y rest hcB, replaceEscaped, if_pos ⟨rfl, rfl⟩,
        rewriteWith, if_pos rfl]
      simp only [if_true]
      rw [ih2.2]
    · have hhead : (rewriteWith table (y :: rest)).head? ≠ some c := by
        rcases head_rewriteWith table y rest with h | ⟨hy, z, r, rr, hrest, hz, hw⟩
        · rw [h]
          simpa using hyc
        · rw [hw]
          rcases hentries z rr hz with e | ⟨d, e, _, hd⟩
          · subst e
            subst hy
            subst hrest
            exact absurd (triple_head z r) (hno z hz)
          · subst e
            simpa using hd
      rw [replaceEscaped_backslash_cons c rep _ hhead, ih2, rewriteWith, if_pos rfl]
      simp only [if_neg hyc, hr]
  | case5 x y rest hx ih =>
    intro hno
    rw [rewriteWith, if_neg hx, replaceEscaped_cons_of_ne c rep x _ hx,
      ih (fun z hz => not_triple_tail z _ _ (hno z hz)), rewriteWith, if_neg hx]

/-- The one-pass rewriting leaves no backslash in front of a code unit of `F`,
when the table rewrites every code unit of `F`, its replacements bring in none,
and no escape that the table removes comes right after a backslash. -/
theorem noEscape_rewriteWith (table : Nat → Option JsString) (F : List Nat)
    (hF : ∀ y, table y = none → y ∉ F)
    (hentries : ∀ y r, table y = some r →
      r = [] ∨ ∃ d, r = [d] ∧ d ≠ BACKSLASH ∧ d ∉ F) :
    ∀ t : JsString, (∀ z, table z = some [] → ¬ [BACKSLASH, BACKSLASH, z] <:+: t) →
      List.Chain' (NoEscape F) (rewriteWith table t) := by
  intro t
  induction t using rewriteWith.induct table with
  | case1 => intro _; simp [rewriteWith]
  | case2 x => intro _; simp [rewriteWith]
  | case3 y rest r hr ih =>
    intro hno
    have ih2 := ih (fun z hz => not_triple_tail z _ _ (not_triple_tail z _ _ (hno z hz)))
    rw [rewriteWith, if_pos rfl, hr]
    simp only
    rcases hentries y r hr with e | ⟨d, e, hd, _⟩
    · subst e
      simpa using ih2
    · subst e
      exact List.Chain'.cons' ih2 (fun _ _ hB => absurd hB hd)
  | case4 y rest hr ih =>
    intro hno
    have ih2 := ih (fun z hz => not_triple_tail z _ _ (hno z hz))
    rw [rewriteWith, if_pos rfl, hr]
    simp only
    refine List.Chain'.cons' ih2 ?_
    intro h hh _
    rcases head_rewriteWith table y rest with h1 | ⟨hy, z, r, rr, hrest, hz, hw⟩
    · rw [h1] at hh
      simp at hh
      subst hh
      exact hF _ hr
    · rcases hentries z rr hz with e | ⟨d, e, _, hd⟩
      · subst e
        subst hy
        subst hrest
        exact absurd (triple_head z r) (hno z hz)
      · subst e
        rw [hw] at hh
        simp at hh
        subst hh
        exact hd
  | case5 x y rest hx ih =>
    intro hno
    have ih2 := ih (fun z hz => not_triple_tail z _ _ (hno z hz))
    rw [rewriteWith, if_neg hx]
    exact List.Chain'.cons' ih2 (fun _ _ hB => absurd hB hx)

theorem rewriteWith_delimiters (t : JsString) :
    rewriteWith
      (fun y => if y = RBRACKET then some [] else if y = LBRACKET then some []
        else if y = RPAREN then some [DOLLAR] else if y = LPAREN then some [DOLLAR]
        else none) t = rewriteDelimiters t := by
  induction t using rewriteDelimiters.induct with
  | case1 => rfl
  | case2 x => rfl
  | case3 x y rest hm ih =>
    rw [rewriteDelimiters, if_pos hm, rewriteWith, if_pos hm.1]
    rcases hm.2 with e | e
    · subst e
      simp only [LPAREN, RPAREN, LBRACKET, RBRACKET] at ih ⊢
      simp [ih]
    · subst e
      simp only [LPAREN, RPAREN, LBRACKET, RBRACKET] at ih ⊢
      simp [ih]
  | case4 x y rest hm1 hm ih =>
    rw [rewriteDelimiters, if_neg hm1, if_pos hm, rewriteWith, if_pos hm.1]
    rcases hm.2 with e | e
    · subst e
      simp only [LPAREN, RPAREN, LBRACKET, RBRACKET] at ih ⊢
      simp [ih]
    · subst e
      simp only [LPAREN, RPAREN, LBRACKET, RBRACKET] at ih ⊢
      simp [ih]
  | case5 x y rest hm1 hm2 ih =>
    rw [rewriteDelimiters, if_neg hm1, if_neg hm2, rewriteWith]
    by_cases hx : x = BACKSLASH
    · have h1 : y ≠ LPAREN := fun e => hm1 ⟨hx, Or.inl e⟩
      have h2 : y ≠ RPAREN := fun e => hm1 ⟨hx, Or.inr e⟩
      have h3 : y ≠ LBRACKET := fun e => hm2 ⟨hx, Or.inl e⟩
      have h4 : y ≠ RBRACKET := fun e => hm2 ⟨hx, Or.inr e⟩
      rw [if_pos hx]
      simp only [if_neg h1, if_neg h2, if_neg h3, if_neg h4]
      rw [ih]
    · rw [if_neg hx, ih]

/-- The table of the four delimiter escapes, in the order in which the passes of
`sanitizeContent` add them. -/
theorem delimiter_entries (c : Nat) (y : Nat) (r : JsString)
    (h : (if y = RBRACKET then some [] else if y = LBRACKET then some []
        else if y = RPAREN then some [DOLLAR] else if y = LPAREN then some [DOLLAR]
        else none) = some r) (hc : DOLLAR ≠ c) :
    (r = [] ∧ (y = LBRACKET ∨ y = RBRACKET)) ∨ ∃ d, r = [d] ∧ d ≠ BACKSLASH ∧ d ≠ c := by
  split_ifs at h with h1 h2 h3 h4
  · cases h; exact Or.inl ⟨rfl, Or.inr h1⟩
  · cases h; exact Or.inl ⟨rfl, Or.inl h2⟩
  · cases h; exact Or.inr ⟨DOLLAR, rfl, by decide, hc⟩
  · cases h; exact Or.inr ⟨DOLLAR, rfl, by decide, hc⟩

/-- When no `\[` comes right after a backslash, the four delimiter passes of
`sanitizeContent` amount to the one-pass rewriting of the specification. -/
theorem passes_eq_rewriteDelimiters (t : JsString)
    (h : ¬ [BACKSLASH, BACKSLASH, LBRACKET] <:+: t) :
    replaceEscaped RBRACKET []
        (replaceEscaped LBRACKET []
          (replaceEscaped RPAREN [DOLLAR]
            (replaceEscaped LPAREN [DOLLAR] t))) = rewriteDelimiters t := by
  have e0 : replaceEscaped LPAREN [DOLLAR] t =
      replaceEscaped LPAREN [DOLLAR] (rewriteWith (fun _ => none) t) := by
    rw [rewriteWith_none]
  rw [e0, replaceEscaped_rewriteWith _ LPAREN [DOLLAR] rfl (by decide)
      (by intro y r hr; simp at hr) t (by intro z hz; simp at hz),
    replaceEscaped_rewriteWith _ RPAREN [DOLLAR] (by decide) (by decide)
      (by
        intro y r hr
        split_ifs at hr with h1
        cases hr
        exact Or.inr ⟨DOLLAR, rfl, by decide, by decide⟩) t
      (by
        intro z hz
        split_ifs at hz with h1
        simp at hz),
    replaceEscaped_rewriteWith _ LBRACKET [] (by decide) (by decide)
      (by
        intro y r hr
        split_ifs at hr with h1 h2
        · cases hr
          exact Or.inr ⟨DOLLAR, rfl, by decide, by decide⟩
        · cases hr
          exact Or.inr ⟨DOLLAR, rfl, by decide, by decide⟩) t
      (by
        intro z hz
        split_ifs at hz with h1 h2
        · simp at hz
        · simp at hz),
    replaceEscaped_rewriteWith _ RBRACKET [] (by decide) (by decide)
      (by
        intro y r hr
        split_ifs at hr with h1 h2 h3
        · cases hr
          exact Or.inl rfl
        · cases hr
          exact Or.inr ⟨DOLLAR, rfl, by decide, by decide⟩
        · cases hr
          exact Or.inr ⟨DOLLAR, rfl, by decide, by decide⟩) t
      (by
        intro z hz
        split_ifs at hz with h1 h2 h3
        · rw [h1]
          exact h
        · simp at hz
        · simp at hz)]
  exact rewriteWith_delimiters t

/-- When neither `\[` nor `\]` comes right after a backslash, the one-pass
rewriting of the specification leaves no delimiter escape. -/
theorem noEscape_rewriteDelimiters (t : JsString)
    (h1 : ¬ [BACKSLASH, BACKSLASH, LBRACKET] <:+: t)
    (h2 : ¬ [BACKSLASH, BACKSLASH, RBRACKET] <:+: t) :
    List.Chain' (NoEscape [LPAREN, RPAREN, LBRACKET, RBRACKET]) (rewriteDelimiters t) := by
  rw [← rewriteWith_delimiters]
  apply noEscape_rewriteWith
  · intro y hy
    split_ifs at hy with a1 a2 a3 a4
    simp [a1, a2, a3, a4]
  · intro y r hr
    rcases delimiter_entries 0 y r hr (by decide) with ⟨e, _⟩ | ⟨d, e, hd, _⟩
    · exact Or.inl e
    · refine Or.inr ⟨d, e, hd, ?_⟩
      split_ifs at hr with a1 a2 a3 a4
      · cases hr; cases e
      · cases hr; cases e
      · cases hr; cases e; decide
      · cases hr; cases e; decide
  · intro z hz
    rcases delimiter_entries 0 z [] hz (by decide) with ⟨_, e | e⟩ | ⟨d, e, _⟩
    · rw [e]; exact h1
    · rw [e]; exact h2
    · cases e

theorem replaceEscaped_of_second_not_mem (c : Nat) (rep : JsString) (t : JsString)
    (h : c ∉ t) : replaceEscaped c rep t = t := by
  induction t using replaceEscaped.induct c rep with
  | case1 => rfl
  | case2 x => rfl
  | case3 x y rest hm ih => exact absurd (by simp [hm.2]) h
  | case4 x y rest hm ih =>
    rw [replaceEscaped, if_neg hm, ih (fun e => h (List.mem_cons_of_mem _ e))]

theorem replaceNewlines_of_not_mem (t : JsString) (h : CR ∉ t) : replaceNewlines t = t := by
  induction t using replaceNewlines.induct with
  | case1 => rfl
  | case2 x => rfl
  | case3 x y rest hm ih => exact absurd (by simp [hm.1]) h
  | case4 x y rest hm ih =>
    rw [replaceNewlines, if_neg hm, ih (fun e => h (List.mem_cons_of_mem _ e))]

/-! ## The claims on `MathText.jsx` -/

/-- C1, as the code has it: when, once the yen signs are backslashes, neither
`\[` nor `\]` comes right after a backslash in the input, every `\(` and `\)`
has been rewritten to `$` and every `\[` and `\]` removed (the result is the
one-pass rewriting of the specification, followed by the newline pass), and the
result of `sanitizeContent` contains none of the two-unit sequences `\(`, `\)`,
`\[`, `\]`. -/
theorem sanitizeContent_no_delimiter (s : JsString)
    (hopen : ¬ [BACKSLASH, BACKSLASH, LBRACKET] <:+: replaceYen s)
    (hclose : ¬ [BACKSLASH, BACKSLASH, RBRACKET] <:+: replaceYen s) :
    sanitizeContent (some s) = replaceNewlines (rewriteDelimiters (replaceYen s)) ∧
    ¬ [BACKSLASH, LPAREN] <:+: sanitizeContent (some s) ∧
    ¬ [BACKSLASH, RPAREN] <:+: sanitizeContent (some s) ∧
    ¬ [BACKSLASH, LBRACKET] <:+: sanitizeContent (some s) ∧
    ¬ [BACKSLASH, RBRACKET] <:+: sanitizeContent (some s) := by
  by_cases hs : s = []
  · subst hs
    simp [sanitizeContent, replaceYen, rewriteDelimiters, replaceNewlines]
  · have h5 := noEscape_replaceNewlines _ (by decide) _
      (noEscape_rewriteDelimiters _ hopen hclose)
    simp only [sanitizeContent, if_neg hs]
    rw [passes_eq_rewriteDelimiters _ hopen]
    exact ⟨rfl,
      not_infix_of_noEscape _ _ _ h5 (by simp),
      not_infix_of_noEscape _ _ _ h5 (by simp),
      not_infix_of_noEscape _ _ _ h5 (by simp),
      not_infix_of_noEscape _ _ _ h5 (by simp)⟩

/-- Witness of C1: the input `a¥(x\)\[y\]\\ b`, with two adjacent backslashes
at the end, which comes out as `a$x$y\\ b`. -/
theorem sanitizeContent_no_delimiter_witness :
    sanitizeContent (some (utf16 "a¥(x\\)\\[y\\]\\\\ b")) =
      replaceNewlines (rewriteDelimiters (replaceYen (utf16 "a¥(x\\)\\[y\\]\\\\ b"))) ∧
    ¬ [BACKSLASH, LPAREN] <:+: sanitizeContent (some (utf16 "a¥(x\\)\\[y\\]\\\\ b")) ∧
    ¬ [BACKSLASH, RPAREN] <:+: sanitizeContent (some (utf16 "a¥(x\\)\\[y\\]\\\\ b")) ∧
    ¬ [BACKSLASH, LBRACKET] <:+: sanitizeContent (some (utf16 "a¥(x\\)\\[y\\]\\\\ b")) ∧
    ¬ [BACKSLASH, RBRACKET] <:+: sanitizeContent (some (utf16 "a¥(x\\)\\[y\\]\\\\ b")) :=
  sanitizeContent_no_delimiter (utf16 "a¥(x\\)\\[y\\]\\\\ b") (by decide) (by decide)

/-- C1 fails as stated: on the four code units `\\[(` the passes for `\(` and
`\)` find nothing, the pass for `\[` removes the middle two, and the result is
`\(`. -/
theorem sanitizeContent_delimiter_counterexample :
    sanitizeContent (some [BACKSLASH, BACKSLASH, LBRACKET, LPAREN]) = [BACKSLASH, LPAREN] ∧
    [BACKSLASH, LPAREN] <:+: sanitizeContent (some [BACKSLASH, BACKSLASH, LBRACKET, LPAREN]) := by
  decide

/-- C2, as the code has it: when every carriage return of the input is
immediately followed by a line feed, the result of `sanitizeContent` contains no
carriage return; and in every case it has as many line feeds as the input. -/
theorem sanitizeContent_crlf (s : JsString) :
    ((∀ i, s[i]? = some CR → s[i + 1]? = some LF) → CR ∉ sanitizeContent (some s)) ∧
    (sanitizeContent (some s)).count LF = s.count LF := by
  by_cases hs : s = []
  · subst hs
    simp [sanitizeContent]
  · simp only [sanitizeContent, if_neg hs]
    constructor
    · intro h
      have h0 := crOnly_replaceYen _ (crOnly_of_index s h)
      have h1 := crOnly_replaceEscaped LPAREN [DOLLAR] (by decide)
        (by intro d hd; rw [List.mem_singleton.1 hd]; decide) _ h0
      have h2 := crOnly_replaceEscaped RPAREN [DOLLAR] (by decide)
        (by intro d hd; rw [List.mem_singleton.1 hd]; decide) _ h1
      have h3 := crOnly_replaceEscaped LBRACKET [] (by decide) (by simp) _ h2
      have h4 := crOnly_replaceEscaped RBRACKET [] (by decide) (by simp) _ h3
      exact not_mem_replaceNewlines _ h4
    · rw [count_lf_replaceNewlines,
        count_lf_replaceEscaped RBRACKET [] (by decide) (by simp),
        count_lf_replaceEscaped LBRACKET [] (by decide) (by simp),
        count_lf_replaceEscaped RPAREN [DOLLAR] (by decide) (by decide),
        count_lf_replaceEscaped LPAREN [DOLLAR] (by decide) (by decide),
        count_lf_replaceYen]

/-- Witness of C2: the input `a`, CR, LF, `b`, LF. -/
theorem sanitizeContent_crlf_witness :
    CR ∉ sanitizeContent (some (utf16 "a\r\nb\n")) :=
  (sanitizeContent_crlf (utf16 "a\r\nb\n")).1 (by
    intro i
    match i with
    | 0 => decide
    | 1 => decide
    | 2 => decide
    | 3 => decide
    | 4 => decide
    | (n + 5) => simp [utf16, utf16Units])

/-- C2 fails as stated: a carriage return that no line feed follows is kept;
`a`, CR, `b` comes back unchanged. -/
theorem sanitizeContent_cr_counterexample :
    sanitizeContent (some (utf16 "a\rb")) = utf16 "a\rb" ∧
    CR ∈ sanitizeContent (some (utf16 "a\rb")) := by
  decide

/-- C3: `sanitizeContent` first replaces every yen sign, of either width, by a
backslash and only then applies the other passes; where no other pass applies
(no parenthesis, square bracket or carriage return in the input) the result is
the input with each yen sign turned into a backslash in place; the result
contains neither yen sign, and it is the result for the input in which each yen
sign has been replaced by a backslash. -/
theorem sanitizeContent_yen (s : JsString) :
    YEN ∉ sanitizeContent (some s) ∧
    FULLWIDTH_YEN ∉ sanitizeContent (some s) ∧
    sanitizeContent (some s) =
      sanitizeContent
        (some (s.map (fun c => if c = YEN ∨ c = FULLWIDTH_YEN then BACKSLASH else c))) ∧
    sanitizeContent (some s) =
      replaceNewlines
        (replaceEscaped RBRACKET []
          (replaceEscaped LBRACKET []
            (replaceEscaped RPAREN [DOLLAR]
              (replaceEscaped LPAREN [DOLLAR]
                (s.map (fun c => if c = YEN ∨ c = FULLWIDTH_YEN then BACKSLASH else c)))))) ∧
    ((∀ c ∈ s, c ≠ LPAREN ∧ c ≠ RPAREN ∧ c ≠ LBRACKET ∧ c ≠ RBRACKET ∧ c ≠ CR) →
      sanitizeContent (some s) =
        s.map (fun c => if c = YEN ∨ c = FULLWIDTH_YEN then BACKSLASH else c)) := by
  by_cases hs : s = []
  · subst hs
    simp [sanitizeContent, replaceEscaped, replaceNewlines]
  · have hs2 : s.map (fun c => if c = YEN ∨ c = FULLWIDTH_YEN then BACKSLASH else c) ≠ [] := by
      simpa using hs
    have hidem := replaceYen_idem s
    simp only [sanitizeContent, if_neg hs, if_neg hs2]
    unfold replaceYen at hidem ⊢
    refine ⟨not_mem_passes YEN (by decide) _ (not_mem_replaceYen s).1,
      not_mem_passes FULLWIDTH_YEN (by decide) _ (not_mem_replaceYen s).2, ?_, rfl, ?_⟩
    · rw [hidem]
    · intro h
      have hmem : ∀ z, z ≠ BACKSLASH → z ∉ s →
          z ∉ s.map (fun c => if c = YEN ∨ c = FULLWIDTH_YEN then BACKSLASH else c) := by
        intro z hzB hz hm
        rcases List.mem_map.1 hm with ⟨c, hc, e⟩
        split_ifs at e with h1
        · exact hzB e.symm
        · exact hz (e ▸ hc)
      rw [replaceEscaped_of_second_not_mem _ _ _
          (hmem LPAREN (by decide) (fun hm => (h _ hm).1 rfl)),
        replaceEscaped_of_second_not_mem _ _ _
          (hmem RPAREN (by decide) (fun hm => (h _ hm).2.1 rfl)),
        replaceEscaped_of_second_not_mem _ _ _
          (hmem LBRACKET (by decide) (fun hm => (h _ hm).2.2.1 rfl)),
        replaceEscaped_of_second_not_mem _ _ _
          (hmem RBRACKET (by decide) (fun hm => (h _ hm).2.2.2.1 rfl)),
        replaceNewlines_of_not_mem _
          (hmem CR (by decide) (fun hm => (h _ hm).2.2.2.2 rfl))]

/-- Witness of C3: the input `¥frac{1}{2}￥pi`, which comes out as
`\frac{1}{2}\pi`. -/
theorem sanitizeContent_yen_witness :
    sanitizeContent (some (utf16 "¥frac\x7b1\x7d\x7b2\x7d￥pi")) =
      utf16 "\\frac\x7b1\x7d\x7b2\x7d\\pi" :=
  (sanitizeContent_yen (utf16 "¥frac\x7b1\x7d\x7b2\x7d￥pi")).2.2.2.2 (by decide)

/-- C4: `MathText` returns `null` on an input that is absent, empty or white
space only, and it returns `null` exactly when the sanitized input is blank
after trimming. -/
theorem MathText_null (children : Option JsString) (className : JsString) :
    (isBlank children = true → MathText children className = none) ∧
    (MathText children className = none ↔ trim (sanitizeContent children) = []) := by
  have hiff : MathText children className = none ↔ trim (sanitizeContent children) = [] := by
    unfold MathText
    by_cases h : trim (sanitizeContent children) = []
    · simp [h]
    · simp [h]
  refine ⟨?_, hiff⟩
  intro hb
  rw [hiff]
  cases children with
  | none => simp [sanitizeContent, trim]
  | some s =>
    by_cases hs : s = []
    · subst hs
      simp [sanitizeContent, trim]
    · have hall : ∀ c ∈ s, isTrimWhitespace c = true := by
        simpa [isBlank, List.all_eq_true] using hb
      have hB : BACKSLASH ∉ s := by
        intro hm
        have := hall _ hm
        revert this
        decide
      simp only [sanitizeContent, if_neg hs]
      rw [replaceYen_of_whitespace s hall, replaceEscaped_of_not_mem _ _ _ hB,
        replaceEscaped_of_not_mem _ _ _ hB, replaceEscaped_of_not_mem _ _ _ hB,
        replaceEscaped_of_not_mem _ _ _ hB]
      apply trim_eq_nil_of_all
      intro c hc
      exact hall c (mem_replaceNewlines c s hc)

/-- Witness of C4: the input made of two spaces, CR, LF and a tab. -/
theorem MathText_null_witness :
    MathText (some (utf16 "  \r\n\t")) (utf16 "text-sm") = none :=
  (MathText_null (some (utf16 "  \r\n\t")) (utf16 "text-sm")).1 (by decide)

/-! ## Lemmas on objects, handlers and runs -/

theorem lookup_setProp_same (k : JsString) (v : JsVal) (o : Props) :
    lookup k (setProp k v o) = v := by
  induction o with
  | nil => simp [setProp, lookup]
  | cons p rest ih =>
    obtain ⟨k', v'⟩ := p
    by_cases h : k' = k
    · simp [setProp, lookup, h]
    · simp [setProp, lookup, h, ih]

theorem lookup_setProp_ne (k k' : JsString) (v : JsVal) (o : Props) (hk : k' ≠ k) :
    lookup k (setProp k' v o) = lookup k o := by
  induction o with
  | nil => simp [setProp, lookup, hk]
  | cons p rest ih =>
    obtain ⟨k'', v''⟩ := p
    by_cases h : k'' = k'
    · subst h
      simp [setProp, lookup, hk]
    · by_cases h2 : k'' = k
      · subst h2
        simp [setProp, lookup, h]
      · simp [setProp, lookup, h, h2, ih]

theorem analyzeTry_httpFailure (textInput : JsString) (reply : Reply JsVal)
    (h : httpFailure reply = true) : ∃ e, analyzeTry textInput reply = .error e := by
  cases reply with
  | rejected m => exact ⟨_, rfl⟩
  | resolved r =>
    obtain ⟨ok, body⟩ := r
    simp [httpFailure] at h
    subst h
    exact ⟨_, rfl⟩

theorem analyzeTry_eq (textInput : JsString) (reply : Reply JsVal) :
    analyzeTry textInput reply =
      match reply with
      | .rejected m => .error (.rejection m)
      | .resolved r =>
        if r.ok = false then .error (.error (.str (utf16 "解析に失敗しました")))
        else
          match r.body with
          | .error m => .error (.rejection m)
          | .ok result =>
            if nullish result = true then .error .typeError
            else if truthy (getPropOpt result (utf16 "success")) = false then
              .error (.error (jsOr (getPropOpt result (utf16 "error"))
                (.str (utf16 "解析結果を取得できませんでした"))))
            else
              .ok (.obj
                (setProp (utf16 "raw_response") (getPropOpt result (utf16 "raw_response"))
                  (setProp (utf16 "original_problem")
                    (jsOr (getPropOpt (getPropOpt result (utf16 "analysis"))
                        (utf16 "original_problem"))
                      (jsOr (getPropOpt result (utf16 "original_problem"))
                        (.str (trim textInput))))
                    (ownEntries (jsOr (getPropOpt result (utf16 "analysis")) (.obj [])))))) := by
  cases reply with
  | rejected m => rfl
  | resolved r =>
    obtain ⟨ok, body⟩ := r
    cases ok with
    | false => rfl
    | true =>
      cases body with
      | error m => rfl
      | ok result =>
        by_cases hn : nullish result = true
        · simp [analyzeTry, awaitFetch, awaitBody, getProp, hn, bind, Except.bind,
            pure, Except.pure]
        · by_cases ht : truthy (getPropOpt result (utf16 "success")) = false
          · simp [analyzeTry, awaitFetch, awaitBody, getProp, hn, ht, bind, Except.bind,
              pure, Except.pure, throw, throwThe, MonadExceptOf.throw]
          · simp [analyzeTry, awaitFetch, awaitBody, getProp, hn, ht, bind, Except.bind,
              pure, Except.pure, throw, throwThe, MonadExceptOf.throw]

theorem truthy_jsOr (a b : JsVal) : truthy (jsOr a b) = (truthy a || truthy b) := by
  unfold jsOr
  by_cases h : truthy a = true
  · simp [h]
  · simp [h]

theorem truthy_str_of_ne_nil (t : JsString) (h : t ≠ []) : truthy (.str t) = true := by
  cases t with
  | nil => exact absurd rfl h
  | cons x r => rfl

theorem analyzeTry_refused (textInput : JsString) (reply : Reply JsVal)
    (h : refusedByBody reply = true) : ∃ e, analyzeTry textInput reply = .error e := by
  rw [analyzeTry_eq]
  cases reply with
  | rejected m => exact ⟨_, rfl⟩
  | resolved r =>
    obtain ⟨ok, body⟩ := r
    cases body with
    | error m => simp [refusedByBody] at h
    | ok result =>
      simp only [refusedByBody, Bool.and_eq_true, Bool.not_eq_true'] at h
      obtain ⟨hok, hflag⟩ := h
      have hok2 : ok = true := hok
      subst hok2
      by_cases hn : nullish result = true
      · refine ⟨.typeError, ?_⟩
        simp [hn]
      · refine ⟨.error (jsOr (getPropOpt result (utf16 "error"))
          (.str (utf16 "解析結果を取得できませんでした"))), ?_⟩
        simp [hn, hflag]

theorem analyzeTry_ok_good (textInput : JsString) (reply : Reply JsVal) (v : JsVal)
    (hti : trim textInput ≠ []) (h : analyzeTry textInput reply = .ok v) :
    GoodAction (.setAnalysisResult v) := by
  rw [analyzeTry_eq] at h
  cases reply with
  | rejected m => simp at h
  | resolved r =>
    obtain ⟨ok, body⟩ := r
    cases ok with
    | false => simp at h
    | true =>
      cases body with
      | error m => simp at h
      | ok result =>
        by_cases hn : nullish result = true
        · simp [hn] at h
        · by_cases ht : truthy (getPropOpt result (utf16 "success")) = false
          · simp [hn, ht] at h
          · simp [hn, ht] at h
            subst h
            refine ⟨_, rfl, ?_⟩
            rw [lookup_setProp_ne _ _ _ _ (by decide), lookup_setProp_same, truthy_jsOr,
              truthy_jsOr, truthy_str_of_ne_nil _ hti]
            simp

theorem handleAnalyze_good (snap : AppState) (reply : Reply JsVal) :
    ∀ a ∈ handleAnalyze snap reply, GoodAction a := by
  intro a ha
  unfold handleAnalyze at ha
  split_ifs at ha with hg
  · simp at ha
    subst ha
    trivial
  · cases hr : analyzeTry snap.textInput reply with
    | error e =>
      rw [hr] at ha
      simp at ha
      rcases ha with rfl | rfl | rfl | rfl | rfl <;> trivial
    | ok v =>
      rw [hr] at ha
      simp at ha
      rcases ha with rfl | rfl | rfl | rfl
      · trivial
      · trivial
      · exact analyzeTry_ok_good _ _ _ hg hr
      · trivial

theorem handleGenerate_good (snap : AppState) (reply : Reply JsVal) :
    ∀ a ∈ handleGenerate snap reply, GoodAction a := by
  intro a ha
  unfold handleGenerate at ha
  split_ifs at ha with hg
  · simp at ha
    subst ha
    trivial
  · cases hr : generateTry reply with
    | error e =>
      rw [hr] at ha
      simp at ha
      rcases ha with rfl | rfl | rfl | rfl | rfl <;> trivial
    | ok v =>
      rw [hr] at ha
      simp at ha
      rcases ha with rfl | rfl | rfl | rfl <;> trivial

theorem handleDownloadPDF_good (snap : AppState) (reply : Reply Blob) :
    ∀ a ∈ handleDownloadPDF snap reply, GoodAction a := by
  intro a ha
  unfold handleDownloadPDF at ha
  split_ifs at ha with hg
  · simp at ha
  · cases hr : downloadTry (utf16 "PDF生成に失敗しました") reply with
    | error e =>
      rw [hr] at ha
      simp at ha
      rcases ha with rfl | rfl | rfl <;> trivial
    | ok v =>
      rw [hr] at ha
      simp at ha
      rcases ha with rfl | rfl <;> trivial

theorem handleDownloadWord_good (snap : AppState) (reply : Reply Blob) :
    ∀ a ∈ handleDownloadWord snap reply, GoodAction a := by
  intro a ha
  unfold handleDownloadWord at ha
  split_ifs at ha with hg
  · simp at ha
  · cases hr : downloadTry (utf16 "Word生成に失敗しました") reply with
    | error e =>
      rw [hr] at ha
      simp at ha
      rcases ha with rfl | rfl | rfl <;> trivial
    | ok v =>
      rw [hr] at ha
      simp at ha
      rcases ha with rfl | rfl <;> trivial

theorem applyAction_invariant (a : Action) (cur : AppState) (ha : GoodAction a)
    (h : StateInvariant cur) : StateInvariant (applyAction a cur) := by
  cases a with
  | setAnalysisResult v => exact ⟨Or.inr ha, h.2⟩
  | setIsAnalyzing b => exact h
  | setIsGenerating b => exact h
  | setGeneratedProblems v => exact h
  | fetch u b => exact h
  | alert t c => exact h
  | consoleError c => exact h
  | save d b => exact h

theorem applyEdit_invariant (e : Edit) (st : AppState) (h : StateInvariant st) :
    StateInvariant (applyEdit e st) := by
  cases e with
  | textInput v => exact h
  | imageFile f => exact h
  | difficulty v => exact h
  | solutionHint v => exact h
  | problemCount parsed =>
    refine ⟨h.1, ?_⟩
    simp only [applyEdit]
    by_cases hp : parsed.truthy = true
    · rw [if_pos hp]
      exact hp
    · rw [if_neg hp]
      decide

theorem reachable_invariant (st : AppState) (h : Reachable st) : StateInvariant st := by
  induction h with
  | init => exact ⟨Or.inl rfl, by decide⟩
  | edit e st _ ih => exact applyEdit_invariant e st ih
  | analyze snap cur reply a _ _ ha _ ihc =>
    exact applyAction_invariant a cur (handleAnalyze_good snap reply a ha) ihc
  | generate snap cur reply a _ _ ha _ ihc =>
    exact applyAction_invariant a cur (handleGenerate_good snap reply a ha) ihc
  | downloadPDF snap cur reply a _ _ ha _ ihc =>
    exact applyAction_invariant a cur (handleDownloadPDF_good snap reply a ha) ihc
  | downloadWord snap cur reply a _ _ ha _ ihc =>
    exact applyAction_invariant a cur (handleDownloadWord_good snap reply a ha) ihc

theorem reachable_run (actions : List Action) :
    ∀ cur : AppState, Reachable cur →
      (∀ a ∈ actions, ∀ c, Reachable c → Reachable (applyAction a c)) →
      Reachable (run actions cur) := by
  induction actions with
  | nil => intro cur h _; exact h
  | cons a rest ih =>
    intro cur h hstep
    exact ih (applyAction a cur) (hstep a (by simp) cur h)
      (fun b hb c hc => hstep b (List.mem_cons_of_mem _ hb) c hc)

/-- A complete analyze call from a reachable state ends in a reachable state. -/
theorem reachable_analyze (st : AppState) (reply : Reply JsVal) (h : Reachable st) :
    Reachable (run (handleAnalyze st reply) st) :=
  reachable_run _ st h (fun a ha c hc => Reachable.analyze st c reply a h hc ha)

/-- A complete generate call from a reachable state ends in a reachable state. -/
theorem reachable_generate (st : AppState) (reply : Reply JsVal) (h : Reachable st) :
    Reachable (run (handleGenerate st reply) st) :=
  reachable_run _ st h (fun a ha c hc => Reachable.generate st c reply a h hc ha)

theorem reachable_analyzedState : Reachable analyzedState :=
  reachable_analyze _ _ (Reachable.edit _ _ Reachable.init)

theorem reachable_generatedState : Reachable generatedState :=
  reachable_generate _ _ reachable_analyzedState

theorem getPropOpt_obj (props : Props) (k : JsString) :
    getPropOpt (.obj props) k = lookup k props := rfl

theorem not_nullish_of_truthy_prop (v : JsVal) (k : JsString)
    (h : truthy (getPropOpt v k) = true) : nullish v = false := by
  cases v <;> first | rfl | (simp [getPropOpt, truthy] at h)

theorem requestBodies_handleAnalyze (st : AppState) (reply : Reply JsVal)
    (h : trim st.textInput ≠ []) :
    requestBodies (handleAnalyze st reply) =
      [.obj [(utf16 "problem_text", .str st.textInput)]] := by
  unfold handleAnalyze
  rw [if_neg h]
  cases analyzeTry st.textInput reply <;> rfl

theorem requestBodies_handleGenerate (st : AppState) (reply : Reply JsVal)
    (h : truthy st.analysisResult = true) :
    requestBodies (handleGenerate st reply) = [generateBody st] := by
  unfold handleGenerate
  rw [if_neg (by simp [h])]
  cases generateTry reply <;> rfl

theorem generateBody_count (st : AppState) :
    getPropOpt (generateBody st) (utf16 "count") =
      jsOr (.num (Number st.problemCount)) (.num (.finite 1)) := by
  unfold generateBody
  rw [getPropOpt_obj]
  simp only [lookup, if_true]
  rw [if_neg (by decide), if_neg (by decide), if_neg (by decide)]

theorem generateBody_original_problem (st : AppState) :
    getPropOpt (generateBody st) (utf16 "original_problem") =
      jsOr (getPropOpt st.analysisResult (utf16 "problem_text"))
        (jsOr (getPropOpt st.analysisResult (utf16 "original_problem"))
          (.str (trim st.textInput))) := by
  unfold generateBody
  rw [getPropOpt_obj]
  simp only [lookup, if_true]
  rw [if_neg (by decide)]

/-! ## The claims on `App.jsx` -/

/-- C5, as the code has it: after a successful analyze call (success status,
truthy `success` flag) whose body has no truthy `analysis.original_problem` and
no truthy top-level `original_problem`, the stored analysis result has the
trimmed text input as its `original_problem`. -/
theorem analyze_stores_trimmed_input (st : AppState) (result : JsVal)
    (hinput : trim st.textInput ≠ [])
    (hsuccess : truthy (getPropOpt result (utf16 "success")) = true)
    (hanalysis : truthy (getPropOpt (getPropOpt result (utf16 "analysis"))
      (utf16 "original_problem")) = false)
    (hecho : truthy (getPropOpt result (utf16 "original_problem")) = false) :
    getPropOpt (run (handleAnalyze st (okReply result)) st).analysisResult
        (utf16 "original_problem") = .str (trim st.textInput) := by
  have hn := not_nullish_of_truthy_prop _ _ hsuccess
  have htry : analyzeTry st.textInput (okReply result) =
      .ok (.obj
        (setProp (utf16 "raw_response") (getPropOpt result (utf16 "raw_response"))
          (setProp (utf16 "original_problem")
            (jsOr (getPropOpt (getPropOpt result (utf16 "analysis"))
                (utf16 "original_problem"))
              (jsOr (getPropOpt result (utf16 "original_problem"))
                (.str (trim st.textInput))))
            (ownEntries (jsOr (getPropOpt result (utf16 "analysis")) (.obj [])))))) := by
    rw [analyzeTry_eq]
    simp [okReply, hn, hsuccess]
  unfold handleAnalyze
  rw [if_neg hinput, htry]
  simp only [run, List.cons_append, List.nil_append, List.foldl_cons, List.foldl_nil,
    applyAction]
  rw [getPropOpt_obj, lookup_setProp_ne _ _ _ _ (by decide), lookup_setProp_same]
  simp [jsOr, hanalysis, hecho]

/-- Witness of C5: ` x ` is typed and the analysis comes back with a grade
only. -/
theorem analyze_stores_trimmed_input_witness :
    getPropOpt (run (handleAnalyze typedState (okReply plainResult)) typedState).analysisResult
        (utf16 "original_problem") = .str (trim typedState.textInput) :=
  analyze_stores_trimmed_input typedState plainResult (by decide) (by decide) (by decide)
    (by decide)

/-- C5 fails as stated: when the body has no `analysis.original_problem` but
echoes the problem at top level, the echo is stored, not the trimmed input. -/
theorem analyze_echo_counterexample :
    truthy (getPropOpt echoResult (utf16 "success")) = true ∧
    getPropOpt (getPropOpt echoResult (utf16 "analysis")) (utf16 "original_problem")
      = .undefined ∧
    trim typedState.textInput = utf16 "x" ∧
    getPropOpt (run (handleAnalyze typedState (okReply echoResult)) typedState).analysisResult
        (utf16 "original_problem") = .str (utf16 "echo") ∧
    JsVal.str (utf16 "echo") ≠ .str (trim typedState.textInput) := by
  refine ⟨by decide, rfl, by decide, rfl, ?_⟩
  intro h
  injection h with h
  revert h
  decide

/-- C6, as the code has it: when the text input is not blank, the one request
of analyze carries the text input as typed, white space included, in
`problem_text`; that is the trimmed text exactly when trimming changes
nothing. -/
theorem analyze_sends_text_input (st : AppState) (reply : Reply JsVal)
    (hinput : trim st.textInput ≠ []) :
    requestBodies (handleAnalyze st reply) =
      [.obj [(utf16 "problem_text", .str st.textInput)]] ∧
    (JsVal.str st.textInput = .str (trim st.textInput) ↔ trim st.textInput = st.textInput) := by
  refine ⟨requestBodies_handleAnalyze st reply hinput, ?_⟩
  constructor
  · intro h
    injection h with h
    exact h.symm
  · intro h
    rw [h]

/-- Witness of C6: ` x ` is typed. -/
theorem analyze_sends_text_input_witness :
    requestBodies (handleAnalyze typedState (okReply plainResult)) =
      [.obj [(utf16 "problem_text", .str typedState.textInput)]] ∧
    (JsVal.str typedState.textInput = .str (trim typedState.textInput) ↔
      trim typedState.textInput = typedState.textInput) :=
  analyze_sends_text_input typedState (okReply plainResult) (by decide)

/-- C6 fails as stated: with ` x ` typed, `problem_text` is ` x `, which is not
the trimmed text `x`. -/
theorem analyze_untrimmed_counterexample :
    trim typedState.textInput = utf16 "x" ∧
    requestBodies (handleAnalyze typedState (okReply plainResult)) =
      [.obj [(utf16 "problem_text", .str (utf16 " x "))]] ∧
    JsVal.str (utf16 " x ") ≠ .str (trim typedState.textInput) := by
  refine ⟨by decide, rfl, ?_⟩
  intro h
  injection h with h
  revert h
  decide

/-- C7: with a text input that is empty or white space only (whatever file is
chosen), analyze issues no request and calls no setter, so any state is left as
it is; with no stored analysis result, the same holds of generate. -/
theorem blocked_before_request (st cur : AppState) (ra rg : Reply JsVal) :
    (st.textInput.all isTrimWhitespace = true →
      requestBodies (handleAnalyze st ra) = [] ∧ run (handleAnalyze st ra) cur = cur ∧
      (run (handleAnalyze st ra) st).analysisResult = st.analysisResult ∧
      (run (handleAnalyze st ra) st).generatedProblems = st.generatedProblems) ∧
    (st.analysisResult = .null →
      requestBodies (handleGenerate st rg) = [] ∧ run (handleGenerate st rg) cur = cur ∧
      run (handleGenerate st rg) st = st) := by
  constructor
  · intro h
    have ht : trim st.textInput = [] :=
      trim_eq_nil_of_all _ (by simpa [List.all_eq_true] using h)
    unfold handleAnalyze
    rw [if_pos ht]
    exact ⟨rfl, rfl, rfl, rfl⟩
  · intro h
    unfold handleGenerate
    rw [h]
    exact ⟨rfl, rfl, rfl⟩

/-- Witness of C7: only spaces are typed, a file is chosen, and nothing has
been analyzed. -/
theorem blocked_before_request_witness :
    (requestBodies (handleAnalyze imageOnlyState (okReply plainResult)) = [] ∧
      run (handleAnalyze imageOnlyState (okReply plainResult)) generatedState
        = generatedState ∧
      (run (handleAnalyze imageOnlyState (okReply plainResult)) imageOnlyState).analysisResult
        = imageOnlyState.analysisResult ∧
      (run (handleAnalyze imageOnlyState (okReply plainResult)) imageOnlyState).generatedProblems
        = imageOnlyState.generatedProblems) ∧
    (requestBodies (handleGenerate imageOnlyState (okReply (.obj []))) = [] ∧
      run (handleGenerate imageOnlyState (okReply (.obj []))) generatedState = generatedState ∧
      run (handleGenerate imageOnlyState (okReply (.obj []))) imageOnlyState = imageOnlyState) :=
  ⟨(blocked_before_request imageOnlyState generatedState (okReply plainResult)
      (okReply (.obj []))).1 (by decide),
    (blocked_before_request imageOnlyState generatedState (okReply plainResult)
      (okReply (.obj []))).2 rfl⟩

/-- C8: when the request of analyze, generate, downloadPdf or downloadWord
fails (rejection or non-success status, and for analyze also a success status
with no truthy `success` flag), the stored analysis result and the stored
generated set are what they were, whatever the state the handler ran in (`st`)
and the state its steps land on (`cur`); a failed download saves no file. -/
theorem failure_keeps_results (st cur : AppState) (ra rg : Reply JsVal) (rp rw : Reply Blob) :
    ((httpFailure ra = true ∨ refusedByBody ra = true) →
      (run (handleAnalyze st ra) cur).analysisResult = cur.analysisResult ∧
      (run (handleAnalyze st ra) cur).generatedProblems = cur.generatedProblems) ∧
    (httpFailure rg = true →
      (run (handleGenerate st rg) cur).analysisResult = cur.analysisResult ∧
      (run (handleGenerate st rg) cur).generatedProblems = cur.generatedProblems) ∧
    (httpFailure rp = true →
      ((run (handleDownloadPDF st rp) cur).analysisResult = cur.analysisResult ∧
        (run (handleDownloadPDF st rp) cur).generatedProblems = cur.generatedProblems) ∧
      ∀ a ∈ handleDownloadPDF st rp, a.isSave = false) ∧
    (httpFailure rw = true →
      ((run (handleDownloadWord st rw) cur).analysisResult = cur.analysisResult ∧
        (run (handleDownloadWord st rw) cur).generatedProblems = cur.generatedProblems) ∧
      ∀ a ∈ handleDownloadWord st rw, a.isSave = false) := by
  refine ⟨?_, ?_, ?_, ?_⟩
  · intro h
    have he : ∃ e, analyzeTry st.textInput ra = .error e := by
      rcases h with h | h
      · exact analyzeTry_httpFailure _ _ h
      · exact analyzeTry_refused _ _ h
    obtain ⟨e, he⟩ := he
    unfold handleAnalyze
    split_ifs with hg
    · exact ⟨rfl, rfl⟩
    · rw [he]
      exact ⟨rfl, rfl⟩
  · intro h
    have he : ∃ e, generateTry rg = .error e := by
      cases rg with
      | rejected m => exact ⟨_, rfl⟩
      | resolved r =>
        obtain ⟨ok, body⟩ := r
        simp [httpFailure] at h
        subst h
        exact ⟨_, rfl⟩
    obtain ⟨e, he⟩ := he
    unfold handleGenerate
    split_ifs with hg
    · exact ⟨rfl, rfl⟩
    · rw [he]
      exact ⟨rfl, rfl⟩
  · intro h
    have he : ∃ e, downloadTry (utf16 "PDF生成に失敗しました") rp = .error e := by
      cases rp with
      | rejected m => exact ⟨_, rfl⟩
      | resolved r =>
        obtain ⟨ok, body⟩ := r
        simp [httpFailure] at h
        subst h
        exact ⟨_, rfl⟩
    obtain ⟨e, he⟩ := he
    unfold handleDownloadPDF
    split_ifs with hg
    · exact ⟨⟨rfl, rfl⟩, by simp⟩
    · rw [he]
      refine ⟨⟨rfl, rfl⟩, ?_⟩
      intro a ha
      simp at ha
      rcases ha with rfl | rfl | rfl <;> rfl
  · intro h
    have he : ∃ e, downloadTry (utf16 "Word生成に失敗しました") rw = .error e := by
      cases rw with
      | rejected m => exact ⟨_, rfl⟩
      | resolved r =>
        obtain ⟨ok, body⟩ := r
        simp [httpFailure] at h
        subst h
        exact ⟨_, rfl⟩
    obtain ⟨e, he⟩ := he
    unfold handleDownloadWord
    split_ifs with hg
    · exact ⟨⟨rfl, rfl⟩, by simp⟩
    · rw [he]
      refine ⟨⟨rfl, rfl⟩, ?_⟩
      intro a ha
      simp at ha
      rcases ha with rfl | rfl | rfl <;> rfl

/-- Witness of C8: after an analysis and a generation, each of the four requests
fails. -/
theorem failure_keeps_results_witness :
    ((run (handleAnalyze generatedState refusedReply) generatedState).analysisResult
        = generatedState.analysisResult ∧
      (run (handleAnalyze generatedState refusedReply) generatedState).generatedProblems
        = generatedState.generatedProblems) ∧
    ((run (handleGenerate generatedState failedReply) generatedState).analysisResult
        = generatedState.analysisResult ∧
      (run (handleGenerate generatedState failedReply) generatedState).generatedProblems
        = generatedState.generatedProblems) ∧
    (((run (handleDownloadPDF generatedState rejectedBlobReply) generatedState).analysisResult
          = generatedState.analysisResult ∧
        (run (handleDownloadPDF generatedState rejectedBlobReply)
          generatedState).generatedProblems = generatedState.generatedProblems) ∧
      ∀ a ∈ handleDownloadPDF generatedState rejectedBlobReply, a.isSave = false) ∧
    (((run (handleDownloadWord generatedState failedBlobReply) generatedState).analysisResult
          = generatedState.analysisResult ∧
        (run (handleDownloadWord generatedState failedBlobReply)
          generatedState).generatedProblems = generatedState.generatedProblems) ∧
      ∀ a ∈ handleDownloadWord generatedState failedBlobReply, a.isSave = false) :=
  ⟨(failure_keeps_results generatedState generatedState refusedReply failedReply
      rejectedBlobReply failedBlobReply).1 (Or.inr (by decide)),
    (failure_keeps_results generatedState generatedState refusedReply failedReply
      rejectedBlobReply failedBlobReply).2.1 (by decide),
    (failure_keeps_results generatedState generatedState refusedReply failedReply
      rejectedBlobReply failedBlobReply).2.2.1 (by decide),
    (failure_keeps_results generatedState generatedState refusedReply failedReply
      rejectedBlobReply failedBlobReply).2.2.2 (by decide)⟩

/-- C9: the `count` that generate sends is `Number(problemCount) || 1`, which is
1 when the coercion yields `NaN`; in every reachable state the coercion of the
stored count succeeds, the fallback to 1 is taken exactly when it fails (that
is, never), and the stored count is sent unchanged. -/
theorem generate_count (st : AppState) (reply : Reply JsVal) :
    (truthy st.analysisResult = true →
      requestBodies (handleGenerate st reply) = [generateBody st]) ∧
    getPropOpt (generateBody st) (utf16 "count") =
      jsOr (.num (Number st.problemCount)) (.num (.finite 1)) ∧
    (Number st.problemCount = .nan →
      getPropOpt (generateBody st) (utf16 "count") = .num (.finite 1)) ∧
    (Reachable st →
      Number st.problemCount ≠ .nan ∧
      (truthy (.num (Number st.problemCount)) = false ↔ Number st.problemCount = .nan) ∧
      getPropOpt (generateBody st) (utf16 "count") = .num (Number st.problemCount) ∧
      getPropOpt (generateBody st) (utf16 "count") = .num st.problemCount) := by
  refine ⟨requestBodies_handleGenerate st reply, generateBody_count st, ?_, ?_⟩
  · intro h
    rw [generateBody_count, h]
    rfl
  · intro hr
    have ht : (Number st.problemCount).truthy = true := (reachable_invariant st hr).2
    have hne : Number st.problemCount ≠ .nan := by
      intro e
      rw [e] at ht
      exact absurd ht (by decide)
    have hcount : getPropOpt (generateBody st) (utf16 "count") =
        .num (Number st.problemCount) := by
      rw [generateBody_count]
      unfold jsOr
      rw [if_pos (by simpa [truthy] using ht)]
    refine ⟨hne, ?_, hcount, hcount⟩
    constructor
    · intro h
      rw [truthy, ht] at h
      exact absurd h (by decide)
    · intro h
      exact absurd h hne

/-- Witness of C9: with `NaN` as count the value 1 is sent; in the reachable
state after an analysis, the stored count 3 is sent as it is. -/
theorem generate_count_witness :
    getPropOpt (generateBody nanCountState) (utf16 "count") = .num (.finite 1) ∧
    requestBodies (handleGenerate analyzedState failedReply) = [generateBody analyzedState] ∧
    (Number analyzedState.problemCount ≠ .nan ∧
      (truthy (.num (Number analyzedState.problemCount)) = false ↔
        Number analyzedState.problemCount = .nan) ∧
      getPropOpt (generateBody analyzedState) (utf16 "count")
        = .num (Number analyzedState.problemCount) ∧
      getPropOpt (generateBody analyzedState) (utf16 "count") = .num (.finite 3)) :=
  ⟨(generate_count nanCountState failedReply).2.2.1 rfl,
    (generate_count analyzedState failedReply).1 rfl,
    (generate_count analyzedState failedReply).2.2.2 reachable_analyzedState⟩

/-- C10: in every reachable state a stored analysis result is an object with a
truthy `original_problem`; so the `original_problem` that generate sends is the
stored `problem_text` when that is truthy and the stored `original_problem`
otherwise, whatever the text input holds. -/
theorem generate_resends_stored_problem (st : AppState) (reply : Reply JsVal)
    (h : Reachable st) :
    (st.analysisResult = .null ∨
      ∃ props, st.analysisResult = .obj props ∧
        truthy (lookup (utf16 "original_problem") props) = true) ∧
    (st.analysisResult ≠ .null →
      truthy (getPropOpt st.analysisResult (utf16 "original_problem")) = true ∧
      ∃ body, requestBodies (handleGenerate st reply) = [body] ∧
        getPropOpt body (utf16 "original_problem") =
          (if truthy (getPropOpt st.analysisResult (utf16 "problem_text")) = true then
            getPropOpt st.analysisResult (utf16 "problem_text")
           else getPropOpt st.analysisResult (utf16 "original_problem"))) := by
  have hinv := (reachable_invariant st h).1
  refine ⟨hinv, ?_⟩
  intro hne
  rcases hinv with h0 | ⟨props, hp, ht⟩
  · exact absurd h0 hne
  · have hop : truthy (getPropOpt st.analysisResult (utf16 "original_problem")) = true := by
      rw [hp, getPropOpt_obj]
      exact ht
    refine ⟨hop, generateBody st,
      requestBodies_handleGenerate st reply (by rw [hp]; rfl), ?_⟩
    rw [generateBody_original_problem]
    unfold jsOr
    rw [if_pos hop]

/-- Witness of C10: the state after ` x ` was typed and analyzed, in which the
text input still holds ` x ` and the stored `original_problem` is `x`. -/
theorem generate_resends_stored_problem_witness :
    truthy (getPropOpt analyzedState.analysisResult (utf16 "original_problem")) = true ∧
    ∃ body, requestBodies (handleGenerate analyzedState failedReply) = [body] ∧
      getPropOpt body (utf16 "original_problem") =
        (if truthy (getPropOpt analyzedState.analysisResult (utf16 "problem_text")) = true then
          getPropOpt analyzedState.analysisResult (utf16 "problem_text")
         else getPropOpt analyzedState.analysisResult (utf16 "original_problem")) :=
  (generate_resends_stored_problem analyzedState failedReply reachable_analyzedState).2
    (fun h => JsVal.noConfusion h)

end MathProblemGenerator
